import Mathlib

/-!
Shallow embedding of `cumulusci/salesforce_api/tooling_retrieve.py` and the
relevant part of `cumulusci/tasks/salesforce/retrieve_profile.py`.

Result rows are modelled as association lists from field name to a Python
value (`none` is Python's `None`, `some s` a string).  Python exceptions are
modelled with the `PyErr` type and fallible code returns `Except PyErr`.
The query transports (synchronous `sf.query` and the bulk job API) are out of
scope per the spec; they enter as an oracle `run : String → Except PyErr
(Option (List Row))` standing for `_run_query` (whose Python return value is
either a dict carrying a `"records"` list, modelled `some rows`, or `None`,
modelled `none`, which `_run_bulk_query` produces when the bulk transport
yields zero result pages).
-/

/-- A Python value appearing in a result row: `None` or a string. -/
abbrev Val := Option String

/-- A result row: mapping from field name to value. -/
abbrev Row := List (String × Val)

/-- The Python exceptions raised by the embedded code. -/
inductive PyErr where
  | keyError (k : String)
  | typeError (msg : String)
  | valueError (msg : String)
  | indexError (msg : String)
  | exception (msg : String)
deriving DecidableEq, Repr

/-- The rendering of `type(e)` used in the wrapped batch failure message. -/
def pyType : PyErr → String
  | .keyError _ => "<class 'KeyError'>"
  | .typeError _ => "<class 'TypeError'>"
  | .valueError _ => "<class 'ValueError'>"
  | .indexError _ => "<class 'IndexError'>"
  | .exception _ => "<class 'Exception'>"

/-- The rendering of `str(e)` (a `KeyError` prints its key in quotes). -/
def pyMsg : PyErr → String
  | .keyError k => "'" ++ k ++ "'"
  | .typeError m => m
  | .valueError m => m
  | .indexError m => m
  | .exception m => m

/-- Python `d[k]` on a row: the value, or a `KeyError`. -/
def dictGet (row : Row) (k : String) : Except PyErr Val :=
  match row.find? (fun p => p.1 == k) with
  | some p => Except.ok p.2
  | none => Except.error (PyErr.keyError k)

/-- Python `k in d` on a row. -/
def dictHas (row : Row) (k : String) : Bool :=
  row.any (fun p => p.1 == k)

/-- Python `xs[0]` on a list: the head, or an `IndexError`. -/
def listHead (xs : List String) : Except PyErr String :=
  match xs with
  | [] => Except.error (PyErr.indexError "list index out of range")
  | x :: _ => Except.ok x

/-- The string a Python f-string renders for a value (`None` prints "None"). -/
def valStr : Val → String
  | none => "None"
  | some s => s

/-- Lookup in an association list used as a Python dict (first match). -/
def alistGet? {α : Type} : List (String × α) → String → Option α
  | [], _ => none
  | p :: rest, k => if p.1 == k then some p.2 else alistGet? rest k

/-- Key membership in an association list used as a Python dict. -/
def alistHas {α : Type} (d : List (String × α)) (k : String) : Bool :=
  d.any (fun p => p.1 == k)

/-- Python `d[k]` on an association-list dict. -/
def alistGetE {α : Type} (d : List (String × α)) (k : String) : Except PyErr α :=
  match alistGet? d k with
  | some v => Except.ok v
  | none => Except.error (PyErr.keyError k)

/-- Python `d.setdefault(k, v)`: insert `k ↦ v` at the end when `k` is absent. -/
def alistSetdefault {α : Type} (d : List (String × α)) (k : String) (v : α) :
    List (String × α) :=
  if alistHas d k then d else d ++ [(k, v)]

/-- Appending values to the list stored under an existing key (`d[k].append`). -/
def alistAppendAll {α : Type} (d : List (String × List α)) (k : String)
    (vs : List α) : List (String × List α) :=
  d.map (fun p => if p.1 == k then (p.1, p.2 ++ vs) else p)

/-- Python `d.update(new)`: overwrite existing keys in place, append new ones. -/
def alistUpdate {α : Type} (d new : List (String × α)) : List (String × α) :=
  new.foldl
    (fun acc p =>
      if alistHas acc p.1 then
        acc.map (fun q => if q.1 == p.1 then p else q)
      else acc ++ [p])
    d

/-- The static descriptor `MetadataInfo` of `tooling_retrieve.py`. -/
structure MetadataInfo where
  columns : List String
  table_name : String
  package_xml_name : String
  id_field : String
deriving DecidableEq, Repr

def APEXCLASS : MetadataInfo :=
  { columns := ["Name", "NamespacePrefix"], table_name := "ApexClass",
    package_xml_name := "ApexClass", id_field := "Id" }

def APEXPAGE : MetadataInfo :=
  { columns := ["Name", "NamespacePrefix"], table_name := "ApexPage",
    package_xml_name := "ApexPage", id_field := "Id" }

def CUSTOMPERMISSION : MetadataInfo :=
  { columns := ["DeveloperName", "NamespacePrefix"], table_name := "CustomPermission",
    package_xml_name := "CustomPermission", id_field := "Id" }

def TABSET : MetadataInfo :=
  { columns := ["Name", "NamespacePrefix"], table_name := "AppMenuItem",
    package_xml_name := "CustomApplication", id_field := "ApplicationId" }

def CONNECTEDAPPLICATION : MetadataInfo :=
  { columns := ["Name", "NamespacePrefix"], table_name := "AppMenuItem",
    package_xml_name := "CustomApplication", id_field := "ApplicationId" }

def EXTERNALDATASOURCE : MetadataInfo :=
  { columns := ["DeveloperName", "NamespacePrefix"], table_name := "ExternalDataSource",
    package_xml_name := "ExternalDataSource", id_field := "Id" }

def FLOWDEFINITION : MetadataInfo :=
  { columns := ["ApiName"], table_name := "FlowDefinitionView",
    package_xml_name := "Flow", id_field := "Id" }

/-- The ordered registry `SETUP_ENTITY_TYPES` (Python dicts keep insertion order). -/
def SETUP_ENTITY_TYPES : List (String × MetadataInfo) :=
  [("ApexClass", APEXCLASS),
   ("ApexPage", APEXPAGE),
   ("CustomPermission", CUSTOMPERMISSION),
   ("TabSet", TABSET),
   ("ConnectedApplication", CONNECTEDAPPLICATION),
   ("ExternalDataSource", EXTERNALDATASOURCE),
   ("FlowDefinition", FLOWDEFINITION)]

def SETUP_ENTITY_QUERY_NAME : String := "setupEntityAccess"

def SOBJECT_TYPE : String := "CustomObject"

def SOBJECT_QUERY_NAME : String := "sObject"

def CUSTOM_TAB_TYPE : String := "CustomTab"

def CUSTOM_TAB_QUERY_NAME : String := "customTab"

/-- A single WHERE value of `_build_query`: `Union[str, List[str]]`. -/
inductive WhereVal where
  | scalar (v : String)
  | listVal (vs : List String)
deriving DecidableEq, Repr

/-- One rendered condition of `_build_query`'s WHERE clause. -/
def renderCondition (key : String) (v : WhereVal) : String :=
  match v with
  | .scalar s => key ++ " = '" ++ s ++ "'"
  | .listVal vs =>
    key ++ " IN (" ++ String.intercalate ", " (vs.map (fun s => "'" ++ s ++ "'")) ++ ")"

/-- `_build_query` of `tooling_retrieve.py` (`where` is `None`/`{}` ↦ `[]`).
The final f-string always places one space after the table name, so a query
without conditions ends in a trailing space. -/
def buildQuery (columns : List String) (table_name : String)
    (whereArg : List (String × WhereVal)) : Except PyErr String :=
  if columns = [] then Except.error (PyErr.valueError "Columns list cannot be empty")
  else if table_name = "" then Except.error (PyErr.valueError "Table name cannot be empty")
  else
    let select_clause := String.intercalate ", " columns
    let where_clause :=
      if whereArg = [] then ""
      else "WHERE " ++
        String.intercalate " AND " (whereArg.map (fun p => renderCondition p.1 p.2))
    Except.ok ("SELECT " ++ select_clause ++ " FROM " ++ table_name ++ " " ++ where_clause)

/-- Character-wise model of Python `str.upper()`. -/
def upperChars (cs : List Char) : List Char :=
  cs.map Char.toUpper

/-- Model of Python `str.find(needle)`: index of the first occurrence. -/
def findSub (needle : List Char) : List Char → Option Nat
  | [] => if needle.isEmpty then some 0 else none
  | c :: rest =>
    if needle.isPrefixOf (c :: rest) then some 0
    else (findSub needle rest).map (fun n => n + 1)

/-- Model of Python `str.strip()`. -/
def stripChars (cs : List Char) : List Char :=
  ((cs.dropWhile Char.isWhitespace).reverse.dropWhile Char.isWhitespace).reverse

/-- Accumulator loop behind `splitWs`. -/
def splitWsAux : List Char → List Char → List (List Char)
  | [], acc => if acc.isEmpty then [] else [acc.reverse]
  | c :: cs, acc =>
    if c.isWhitespace then
      if acc.isEmpty then splitWsAux cs [] else acc.reverse :: splitWsAux cs []
    else splitWsAux cs (c :: acc)

/-- Model of Python `str.split()` with no argument: split on whitespace runs,
no empty tokens. -/
def splitWs (cs : List Char) : List (List Char) :=
  splitWsAux cs []

/-- `_extract_table_name_from_query`: find `FROM` case-insensitively, slice the
original text after it, strip, split, take token 0.  No `FROM` raises the
`ValueError` the spec calls `MalformedQuery`; `FROM` with nothing after it
makes `split()[0]` raise an `IndexError`. -/
def extractTableNameFromQuery (query : String) : Except PyErr String :=
  match findSub ("FROM".data) (upperChars query.data) with
  | some idx =>
    match splitWs (stripChars (query.data.drop (idx + 4))) with
    | [] => Except.error (PyErr.indexError "list index out of range")
    | tok :: _ => Except.ok (String.mk tok)
  | none => Except.error (PyErr.valueError "Invalid query format. 'FROM' clause not found.")

/-- `_run_bulk_query`, parameterised by the already-parsed result pages the
bulk transport yields.  The Python loop over `get_all_results_for_query_batch`
returns from its first iteration, so only the first page is ever parsed and
returned; zero pages fall off the loop and return `None`. -/
def runBulkQuery (pages : List (List Row)) : Option (List Row) :=
  match pages with
  | [] => none
  | p :: _ => some p

/-- The `_run_query` oracle: `some rows` models a dict `{"records": rows}`,
`none` models the `None` that `_run_bulk_query` returns on zero pages. -/
abbrev RunFn := String → Except PyErr (Option (List Row))

/-- Python `query_result["records"]`: subscripting `None` raises a `TypeError`. -/
def recordsOf (res : Option (List Row)) : Except PyErr (List Row) :=
  match res with
  | some rows => Except.ok rows
  | none => Except.error (PyErr.typeError "'NoneType' object is not subscriptable")

/-- The aggregate failure `_run_queries_in_parallel` raises for one query:
`Exception(f"Error executing query '{name}': {type(e)}: {e}")`. -/
def wrapQueryError (name : String) (e : PyErr) : PyErr :=
  PyErr.exception
    ("Error executing query '" ++ name ++ "': " ++ pyType e ++ ": " ++ pyMsg e)

/-- `_run_queries_in_parallel`: futures are harvested in insertion order; the
first harvested failure is wrapped and raised, so no partial mapping is ever
returned.  (The `queries.pop` bookkeeping of the `else` branch has no effect
on the result and is omitted.) -/
def runQueriesInParallel (run : RunFn) :
    List (String × String) → Except PyErr (List (String × List Row))
  | [] => Except.ok []
  | (name, q) :: rest =>
    match (run q).bind recordsOf with
    | Except.ok rows =>
      match runQueriesInParallel run rest with
      | Except.ok tl => Except.ok ((name, rows) :: tl)
      | Except.error e => Except.error e
    | Except.error e => Except.error (wrapQueryError name e)

/-- The list comprehension `[data[k] for data in rows]`. -/
def pyMapGet (rows : List Row) (k : String) : Except PyErr (List Val) :=
  match rows with
  | [] => Except.ok []
  | r :: rs => do
    let v ← dictGet r k
    let vs ← pyMapGet rs k
    Except.ok (v :: vs)

/-- `_process_sObject_results`. -/
def processSObjectResults (result_list : List Row) :
    Except PyErr (List (String × List Val)) :=
  (pyMapGet result_list "SobjectType").map (fun vs => [(SOBJECT_TYPE, vs)])

/-- `_process_customTab_results`. -/
def processCustomTabResults (result_list : List Row) :
    Except PyErr (List (String × List Val)) :=
  (pyMapGet result_list "Name").map (fun vs => [(CUSTOM_TAB_TYPE, vs)])

/-- The reads `data["SetupEntityType"]`, `data["SetupEntityId"]` performed on
each phase-1 row, in loop order. -/
def extractAccessPairs : List Row → Except PyErr (List (Val × Val))
  | [] => Except.ok []
  | r :: rs => do
    let t ← dictGet r "SetupEntityType"
    let i ← dictGet r "SetupEntityId"
    let tl ← extractAccessPairs rs
    Except.ok ((t, i) :: tl)

/-- The bucket dict `{t: [] for t in SETUP_ENTITY_TYPES}`. -/
def initBuckets : List (String × List Val) :=
  SETUP_ENTITY_TYPES.map (fun p => (p.1, []))

/-- The classification loop body over the extracted (type, id) pairs:
append the id under its type exactly when the type is a known key. -/
def classifyAux : List (Val × Val) → List (String × List Val) → List (String × List Val)
  | [], d => d
  | (t, i) :: rest, d =>
    classifyAux rest
      (match t with
       | some s =>
         if (SETUP_ENTITY_TYPES.map Prod.fst).contains s then alistAppendAll d s [i]
         else d
       | none => d)

/-- The classification phase of `_process_setupEntityAccess_results`. -/
def classify (pairs : List (Val × Val)) : List (String × List Val) :=
  classifyAux pairs initBuckets

/-- Specification-side view of one discovery bucket: the ids of the pairs
carrying exactly that type, in order. -/
def bucketOf (pairs : List (Val × Val)) (t : String) : List Val :=
  (pairs.filter (fun p => p.1 == some t)).map Prod.snd

/-- The phase-2 query-building loop: one query per descriptor whose bucket is
non-empty (the Python guard `if query_values and len(...) != 0`; a
`MetadataInfo` instance is always truthy). -/
def buildSetupQueriesAux :
    List (String × MetadataInfo) → List (String × List Val) →
      Except PyErr (List (String × String))
  | [], _ => Except.ok []
  | (t, info) :: rest, d =>
    match alistGet? d t with
    | none => Except.error (PyErr.keyError t)
    | some bucket =>
      if bucket.length ≠ 0 then do
        let q ← buildQuery info.columns info.table_name
          [(info.id_field, WhereVal.listVal (bucket.map valStr))]
        let tl ← buildSetupQueriesAux rest d
        Except.ok ((t, q) :: tl)
      else buildSetupQueriesAux rest d

/-- Phase-2 queries built from the extracted pairs. -/
def buildSetupQueries (pairs : List (Val × Val)) :
    Except PyErr (List (String × String)) :=
  buildSetupQueriesAux SETUP_ENTITY_TYPES (classify pairs)

/-- The member-identifier assembly for one resolved row:
`f'{item["NamespacePrefix"]}__{item[data.columns[0]]}'` when the prefix field
is present and non-null, else `item[data.columns[0]]` unchanged. -/
def assembleMemberId (item : Row) (columns : List String) : Except PyErr Val :=
  match dictGet item "NamespacePrefix" with
  | Except.ok (some p) => do
    let c0 ← listHead columns
    let v ← dictGet item c0
    Except.ok (some (p ++ "__" ++ valStr v))
  | _ => do
    let c0 ← listHead columns
    dictGet item c0

/-- The inner append loop over one descriptor's resolved rows. -/
def appendMembers (items : List Row) (columns : List String) :
    Except PyErr (List Val) :=
  match items with
  | [] => Except.ok []
  | it :: rest => do
    let v ← assembleMemberId it columns
    let tl ← appendMembers rest columns
    Except.ok (v :: tl)

/-- The final loop of `_process_setupEntityAccess_results`: for each descriptor
with a resolved result, `setdefault` its manifest category and append its
assembled member ids. -/
def extractValuesAux :
    List (String × MetadataInfo) → List (String × List Row) →
      List (String × List Val) → Except PyErr (List (String × List Val))
  | [], _, acc => Except.ok acc
  | (t, info) :: rest, result, acc =>
    match alistGet? result t with
    | some items => do
      let acc1 := alistSetdefault acc info.package_xml_name []
      let vs ← appendMembers items info.columns
      extractValuesAux rest result (alistAppendAll acc1 info.package_xml_name vs)
    | none => extractValuesAux rest result acc

/-- `_process_setupEntityAccess_results`, parameterised by the query oracle. -/
def processSetupEntityAccessResults (run : RunFn) (result_list : List Row) :
    Except PyErr (List (String × List Val)) := do
  let pairs ← extractAccessPairs result_list
  let queries ← buildSetupQueriesAux SETUP_ENTITY_TYPES (classify pairs)
  let result ← runQueriesInParallel run queries
  extractValuesAux SETUP_ENTITY_TYPES result []

/-- `_retrieve_permissionable_entities`. -/
def retrievePermissionableEntities (run : RunFn) (profiles : List String) :
    Except PyErr (List (String × List Val)) := do
  let seaQuery ← buildQuery ["SetupEntityId", "SetupEntityType"] "SetupEntityAccess"
    [("Parent.Profile.Name", WhereVal.listVal profiles)]
  let sObjectQuery ← buildQuery ["SObjectType"] "ObjectPermissions"
    [("Parent.Profile.Name", WhereVal.listVal profiles)]
  let customTabQuery ← buildQuery ["Name"] "PermissionSetTabSetting"
    [("Parent.Profile.Name", WhereVal.listVal profiles)]
  let queries := [(SETUP_ENTITY_QUERY_NAME, seaQuery),
                  (SOBJECT_QUERY_NAME, sObjectQuery),
                  (CUSTOM_TAB_QUERY_NAME, customTabQuery)]
  let result ← runQueriesInParallel run queries
  let seaRows ← alistGetE result SETUP_ENTITY_QUERY_NAME
  let d1 ← processSetupEntityAccessResults run seaRows
  let sObjRows ← alistGetE result SOBJECT_QUERY_NAME
  let d2 ← processSObjectResults sObjRows
  let tabRows ← alistGetE result CUSTOM_TAB_QUERY_NAME
  let d3 ← processCustomTabResults tabRows
  Except.ok (alistUpdate (alistUpdate (alistUpdate [] d1) d2) d3)

/-- The merge `{**permissionable_entities, **{"Profile": profiles}}` of
`RetrieveProfile._run_task`. -/
def entitiesToBeRetrieved (run : RunFn) (profiles : List String) :
    Except PyErr (List (String × List Val)) := do
  let pe ← retrievePermissionableEntities run profiles
  Except.ok (alistUpdate pe [("Profile", profiles.map some)])

/-! ## Helper lemmas -/

theorem exceptBindOkInv {α β : Type} {x : Except PyErr α} {f : α → Except PyErr β}
    {b : β} (h : x >>= f = Except.ok b) : ∃ a, x = Except.ok a ∧ f a = Except.ok b := by
  cases x with
  | error e => exact absurd h (by intro hc; exact Except.noConfusion hc)
  | ok a => exact ⟨a, rfl, h⟩

/-! ## Claim theorems -/

/-- C1 (code bug): in `_run_bulk_query` the `return` sits inside the loop over
result pages, so with two pages only the first page's rows are returned — not
the rows of all pages, contradicting the claim that every page is merged. -/
theorem C1_bulk_query_returns_first_page_only :
    runBulkQuery [[[("Name", some "a")]], [[("Name", some "b")]]] =
      some [[("Name", some "a")]] ∧
    runBulkQuery [[[("Name", some "a")]], [[("Name", some "b")]]] ≠
      some ([[("Name", some "a")]] ++ [[("Name", some "b")]]) := by
  exact ⟨rfl, by decide⟩

/-- C5: `_build_query` joins columns with ", ", omits the WHERE clause when no
conditions are given, renders scalar conditions as field = 'value' and list
conditions as field IN ('v1', 'v2', ...), joins conditions with " AND ",
produces exactly "SELECT A, B FROM T WHERE X IN ('1', '2')" on the spec's
example, and errors exactly when the column list or the table name is empty. -/
theorem C5_build_query_format :
    (buildQuery ["A", "B"] "T" [("X", WhereVal.listVal ["1", "2"])] =
      Except.ok "SELECT A, B FROM T WHERE X IN ('1', '2')") ∧
    (∀ columns table_name whereArg,
      (∃ e, buildQuery columns table_name whereArg = Except.error e) ↔
        (columns = [] ∨ table_name = "")) ∧
    (∀ columns table_name, columns ≠ [] → table_name ≠ "" →
      buildQuery columns table_name [] =
        Except.ok ("SELECT " ++ String.intercalate ", " columns ++ " FROM " ++
          table_name ++ " ")) ∧
    (∀ columns table_name whereArg, columns ≠ [] → table_name ≠ "" → whereArg ≠ [] →
      buildQuery columns table_name whereArg =
        Except.ok ("SELECT " ++ String.intercalate ", " columns ++ " FROM " ++
          table_name ++ " WHERE " ++
          String.intercalate " AND "
            (whereArg.map (fun p => renderCondition p.1 p.2)))) ∧
    (∀ k v, renderCondition k (WhereVal.scalar v) = k ++ " = '" ++ v ++ "'") ∧
    (∀ k vs, renderCondition k (WhereVal.listVal vs) =
      k ++ " IN (" ++ String.intercalate ", " (vs.map (fun s => "'" ++ s ++ "'")) ++ ")") := by
  refine ⟨rfl, ?_, ?_, ?_, fun k v => rfl, fun k vs => rfl⟩
  · intro columns table_name whereArg
    constructor
    · rintro ⟨e, he⟩
      by_cases hc : columns = []
      · exact Or.inl hc
      by_cases ht : table_name = ""
      · exact Or.inr ht
      · simp [buildQuery, hc, ht] at he
    · rintro (hc | ht)
      · exact ⟨PyErr.valueError "Columns list cannot be empty", by simp [buildQuery, hc]⟩
      · by_cases hc : columns = []
        · exact ⟨PyErr.valueError "Columns list cannot be empty", by simp [buildQuery, hc]⟩
        · exact ⟨PyErr.valueError "Table name cannot be empty", by simp [buildQuery, hc, ht]⟩
  · intro columns table_name hc ht
    simp [buildQuery, hc, ht]
  · intro columns table_name whereArg hc ht hw
    simp only [buildQuery, if_neg hc, if_neg ht, if_neg hw, String.append_assoc]
    rfl

/-- C5 witness: the theorem applied at a concrete no-condition call. -/
theorem C5_build_query_format_witness :
    buildQuery ["A"] "Tbl" [] =
      Except.ok ("SELECT " ++ String.intercalate ", " ["A"] ++ " FROM " ++ "Tbl" ++ " ") :=
  C5_build_query_format.2.2.1 ["A"] "Tbl" (by decide) (by decide)

theorem findSubIsSomeIff (needle : List Char) :
    ∀ hay : List Char,
      (findSub needle hay).isSome ↔ ∃ pre post, hay = pre ++ needle ++ post := by
  intro hay
  induction hay with
  | nil =>
    cases needle with
    | nil =>
      simp [findSub]
    | cons c cs =>
      simp [findSub]
  | cons c rest ih =>
    by_cases hp : needle.isPrefixOf (c :: rest)
    · simp only [findSub, hp, if_true, Option.isSome_some, true_iff]
      obtain ⟨t, ht⟩ := List.isPrefixOf_iff_prefix.mp hp
      exact ⟨[], t, by simp [ht]⟩
    · simp only [findSub, hp, if_false, Bool.false_eq_true]
      cases hf : findSub needle rest with
      | none =>
        rw [hf] at ih
        simp only [Option.map_none', Option.isSome_none, Bool.false_eq_true, false_iff]
        simp only [Option.isSome_none, Bool.false_eq_true, false_iff] at ih
        rintro ⟨pre, post, hEq⟩
        cases pre with
        | nil =>
          exact hp (List.isPrefixOf_iff_prefix.mpr ⟨post, by simpa using hEq.symm⟩)
        | cons d pre' =>
          have h2 : c = d ∧ rest = pre' ++ (needle ++ post) := by simpa using hEq
          exact ih ⟨pre', post, by rw [List.append_assoc]; exact h2.2⟩
      | some n =>
        rw [hf] at ih
        simp only [Option.map_some', Option.isSome_some, true_iff]
        simp only [Option.isSome_some, true_iff] at ih
        obtain ⟨pre, post, hEq⟩ := ih
        exact ⟨c :: pre, post, by simp [hEq]⟩

theorem findSubEqNoneIff (needle hay : List Char) :
    findSub needle hay = none ↔ ¬ ∃ pre post, hay = pre ++ needle ++ post := by
  rw [← findSubIsSomeIff]
  cases findSub needle hay <;> simp

/-- C6: table-name extraction finds the FROM keyword case-insensitively and
returns the next whitespace-delimited token (the spec's mixed-case example
yields "Account"), and it raises the `ValueError` the spec calls
`MalformedQuery` exactly when "FROM" occurs nowhere in the uppercased query
text. -/
theorem C6_extract_table_name :
    (extractTableNameFromQuery "SELECT Id from Account WHERE Name='x'" =
      Except.ok "Account") ∧
    (∀ q, extractTableNameFromQuery q =
        Except.error (PyErr.valueError "Invalid query format. 'FROM' clause not found.") ↔
      ¬ ∃ pre post, upperChars q.data = pre ++ ("FROM".data) ++ post) ∧
    (∀ q i tok toks,
      findSub ("FROM".data) (upperChars q.data) = some i →
      splitWs (stripChars (q.data.drop (i + 4))) = tok :: toks →
      extractTableNameFromQuery q = Except.ok (String.mk tok)) := by
  refine ⟨rfl, ?_, ?_⟩
  · intro q
    rw [← findSubEqNoneIff]
    unfold extractTableNameFromQuery
    cases hf : findSub ("FROM".data) (upperChars q.data) with
    | none => simp
    | some i =>
      cases hs : splitWs (stripChars (q.data.drop (i + 4))) with
      | nil => simp [hs]
      | cons t ts => simp [hs]
  · intro q i tok toks hf hs
    simp [extractTableNameFromQuery, hf, hs]

/-- C6 witness: the token case applied at a concrete query. -/
theorem C6_extract_table_name_witness :
    extractTableNameFromQuery "SELECT Id FROM Contact" =
      Except.ok (String.mk "Contact".data) :=
  C6_extract_table_name.2.2 "SELECT Id FROM Contact" 10 ("Contact".data) []
    (by decide) (by decide)

theorem exceptOkBind {α β : Type} (a : α) (f : α → Except PyErr β) :
    (Except.ok a >>= f) = f a := rfl

theorem exceptErrorBind {α β : Type} (e : PyErr) (f : α → Except PyErr β) :
    ((Except.error e : Except PyErr α) >>= f) = Except.error e := rfl

/-- C7: the member identifier is prefix ++ "__" ++ primary when the
NamespacePrefix field is present and non-null, and exactly the primary
column's value otherwise; prefix "ns" with primary "Foo" gives "ns__Foo" and
a null prefix gives "Foo". -/
theorem C7_member_id_assembly :
    (∀ item columns c0 p v,
      listHead columns = Except.ok c0 →
      dictGet item "NamespacePrefix" = Except.ok (some p) →
      dictGet item c0 = Except.ok v →
      assembleMemberId item columns = Except.ok (some (p ++ "__" ++ valStr v))) ∧
    (∀ item columns c0 v,
      listHead columns = Except.ok c0 →
      (dictGet item "NamespacePrefix" = Except.ok none ∨
        ∃ e, dictGet item "NamespacePrefix" = Except.error e) →
      dictGet item c0 = Except.ok v →
      assembleMemberId item columns = Except.ok v) ∧
    (assembleMemberId [("NamespacePrefix", some "ns"), ("Name", some "Foo")] ["Name"] =
      Except.ok (some "ns__Foo")) ∧
    (assembleMemberId [("NamespacePrefix", none), ("Name", some "Foo")] ["Name"] =
      Except.ok (some "Foo")) := by
  refine ⟨?_, ?_, rfl, rfl⟩
  · intro item columns c0 p v h1 h2 h3
    simp [assembleMemberId, h1, h2, h3, exceptOkBind]
  · intro item columns c0 v h1 h2 h3
    rcases h2 with h2 | ⟨e, h2⟩ <;> simp [assembleMemberId, h1, h2, h3, exceptOkBind]

/-- C7 witness: both branches applied at concrete rows. -/
theorem C7_member_id_assembly_witness :
    assembleMemberId [("NamespacePrefix", some "p"), ("DeveloperName", some "Bar")]
      ["DeveloperName"] = Except.ok (some ("p" ++ "__" ++ valStr (some "Bar"))) :=
  C7_member_id_assembly.1
    [("NamespacePrefix", some "p"), ("DeveloperName", some "Bar")]
    ["DeveloperName"] "DeveloperName" "p" (some "Bar") rfl rfl rfl

/-- C10: zero bulk result pages make `_run_bulk_query` return None (not an
empty row list), and the enclosing batch call then raises the wrapped
aggregate failure naming that query (a TypeError from subscripting None)
instead of reporting a success with no rows. -/
theorem C10_zero_pages_wrapped_failure :
    runBulkQuery ([] : List (List Row)) = none ∧
    (∀ run : RunFn, ∀ name q : String,
      run q = Except.ok none →
      runQueriesInParallel run [(name, q)] =
        Except.error (wrapQueryError name
          (PyErr.typeError "'NoneType' object is not subscriptable")) ∧
      (∀ out, runQueriesInParallel run [(name, q)] ≠ Except.ok out) ∧
      ∃ s1 s2, pyMsg (wrapQueryError name
          (PyErr.typeError "'NoneType' object is not subscriptable")) =
        s1 ++ (name ++ s2)) := by
  refine ⟨rfl, ?_⟩
  intro run name q h
  have hrun : runQueriesInParallel run [(name, q)] =
      Except.error (wrapQueryError name
        (PyErr.typeError "'NoneType' object is not subscriptable")) := by
    simp [runQueriesInParallel, h, recordsOf, Except.bind]
  refine ⟨hrun, ?_, ?_⟩
  · intro out hout
    rw [hrun] at hout
    exact Except.noConfusion hout
  · refine ⟨"Error executing query '",
      "': " ++ pyType (PyErr.typeError "'NoneType' object is not subscriptable") ++
        ": " ++ pyMsg (PyErr.typeError "'NoneType' object is not subscriptable"), ?_⟩
    simp [wrapQueryError, pyMsg, String.append_assoc]

/-- C10 witness: the theorem applied at a concrete oracle and query. -/
theorem C10_zero_pages_wrapped_failure_witness :
    runQueriesInParallel (fun _ => Except.ok (runBulkQuery [])) [("q1", "SELECT Id FROM X")] =
      Except.error (wrapQueryError "q1"
        (PyErr.typeError "'NoneType' object is not subscriptable")) :=
  ((C10_zero_pages_wrapped_failure.2 (fun _ => Except.ok (runBulkQuery []))
    "q1" "SELECT Id FROM X") rfl).1

theorem dictGetOfNotHas (r : Row) (k : String) (h : dictHas r k = false) :
    dictGet r k = Except.error (PyErr.keyError k) := by
  have hf : r.find? (fun p => p.1 == k) = none := by
    apply List.find?_eq_none.mpr
    intro x hx
    simp only [dictHas, List.any_eq_false] at h
    simpa using h x hx
  simp [dictGet, hf]

theorem dictGetErrEq (r : Row) (k : String) (e : PyErr)
    (h : dictGet r k = Except.error e) : e = PyErr.keyError k := by
  unfold dictGet at h
  cases hf : r.find? (fun p => p.1 == k) <;> rw [hf] at h
  · exact (Except.error.inj h).symm
  · exact Except.noConfusion h

theorem pyMapGetErrOfMissing (k : String) :
    ∀ rows : List Row, (∃ r ∈ rows, dictHas r k = false) →
      pyMapGet rows k = Except.error (PyErr.keyError k) := by
  intro rows
  induction rows with
  | nil => rintro ⟨r, hr, _⟩; cases hr
  | cons a rest ih =>
    rintro ⟨r, hr, hmiss⟩
    rcases List.mem_cons.mp hr with rfl | hmem
    · simp [pyMapGet, dictGetOfNotHas r k hmiss, exceptErrorBind]
    · cases ha : dictGet a k with
      | error e =>
        rw [dictGetErrEq a k e ha] at ha
        simp [pyMapGet, ha, exceptErrorBind]
      | ok v =>
        simp [pyMapGet, ha, exceptOkBind, ih ⟨r, hmem, hmiss⟩, exceptErrorBind]

/-- C2, as stated, is false: a result row in which an expected field is absent
does make processing raise — `_process_sObject_results` on one empty row
raises KeyError("SobjectType"). -/
theorem C2_missing_field_raises_counterexample :
    processSObjectResults [[]] = Except.error (PyErr.keyError "SobjectType") := rfl

/-- C2 amended: only the NamespacePrefix field is handled defensively (name
assembly succeeds whenever the primary column is present, whatever the
NamespacePrefix field's presence or nullity); the object-type field, the tab
Name field, the SetupEntityType/SetupEntityId fields, and the descriptor's
primary column are indexed directly, so a row missing any one of them raises
a KeyError. -/
theorem C2_only_namespace_field_defensive :
    (∀ item columns c0 v,
      listHead columns = Except.ok c0 →
      dictGet item c0 = Except.ok v →
      ∃ w, assembleMemberId item columns = Except.ok w) ∧
    (∀ rows : List Row, (∃ r ∈ rows, dictHas r "SobjectType" = false) →
      processSObjectResults rows = Except.error (PyErr.keyError "SobjectType")) ∧
    (∀ rows : List Row, (∃ r ∈ rows, dictHas r "Name" = false) →
      processCustomTabResults rows = Except.error (PyErr.keyError "Name")) ∧
    (∀ rows : List Row,
      (∃ r ∈ rows, dictHas r "SetupEntityType" = false ∨
        dictHas r "SetupEntityId" = false) →
      extractAccessPairs rows = Except.error (PyErr.keyError "SetupEntityType") ∨
      extractAccessPairs rows = Except.error (PyErr.keyError "SetupEntityId")) ∧
    (∀ item columns c0,
      listHead columns = Except.ok c0 →
      dictHas item c0 = false →
      assembleMemberId item columns = Except.error (PyErr.keyError c0)) := by
  refine ⟨?_, ?_, ?_, ?_, ?_⟩
  · intro item columns c0 v h1 h3
    cases h2 : dictGet item "NamespacePrefix" with
    | ok p =>
      cases p with
      | some s =>
        exact ⟨some (s ++ "__" ++ valStr v),
          by simp [assembleMemberId, h1, h2, h3, exceptOkBind]⟩
      | none => exact ⟨v, by simp [assembleMemberId, h1, h2, h3, exceptOkBind]⟩
    | error e => exact ⟨v, by simp [assembleMemberId, h1, h2, h3, exceptOkBind]⟩
  · intro rows hr
    simp [processSObjectResults, pyMapGetErrOfMissing "SobjectType" rows hr, Except.map]
  · intro rows hr
    simp [processCustomTabResults, pyMapGetErrOfMissing "Name" rows hr, Except.map]
  · intro rows
    induction rows with
    | nil => rintro ⟨r, hr, _⟩; cases hr
    | cons a rest ih =>
      rintro ⟨r, hr, hmiss⟩
      rcases List.mem_cons.mp hr with rfl | hmem
      · rcases hmiss with hm1 | hm2
        · exact Or.inl (by simp [extractAccessPairs,
            dictGetOfNotHas r "SetupEntityType" hm1, exceptErrorBind])
        · cases ha : dictGet r "SetupEntityType" with
          | error e =>
            rw [dictGetErrEq r "SetupEntityType" e ha] at ha
            exact Or.inl (by simp [extractAccessPairs, ha, exceptErrorBind])
          | ok t =>
            exact Or.inr (by simp [extractAccessPairs, ha,
              dictGetOfNotHas r "SetupEntityId" hm2, exceptOkBind, exceptErrorBind])
      · cases ha : dictGet a "SetupEntityType" with
        | error e =>
          rw [dictGetErrEq a "SetupEntityType" e ha] at ha
          exact Or.inl (by simp [extractAccessPairs, ha, exceptErrorBind])
        | ok t =>
          cases hb : dictGet a "SetupEntityId" with
          | error e =>
            rw [dictGetErrEq a "SetupEntityId" e hb] at hb
            exact Or.inr (by simp [extractAccessPairs, ha, hb, exceptOkBind,
              exceptErrorBind])
          | ok i =>
            rcases ih ⟨r, hmem, hmiss⟩ with he | he
            · exact Or.inl (by simp [extractAccessPairs, ha, hb, he, exceptOkBind,
                exceptErrorBind])
            · exact Or.inr (by simp [extractAccessPairs, ha, hb, he, exceptOkBind,
                exceptErrorBind])
  · intro item columns c0 h1 h2
    have hc0 : dictGet item c0 = Except.error (PyErr.keyError c0) :=
      dictGetOfNotHas item c0 h2
    cases h3 : dictGet item "NamespacePrefix" with
    | ok p =>
      cases p with
      | some s =>
        simp [assembleMemberId, h1, h3, hc0, exceptOkBind, exceptErrorBind]
      | none => simp [assembleMemberId, h1, h3, hc0, exceptOkBind]
    | error e => simp [assembleMemberId, h1, h3, hc0, exceptOkBind]

/-- C2 amended witness: a row carrying a different field raises
KeyError("SobjectType") in the object-permission processor. -/
theorem C2_only_namespace_field_defensive_witness :
    processSObjectResults [[("Other", some "x")]] =
      Except.error (PyErr.keyError "SobjectType") :=
  C2_only_namespace_field_defensive.2.1 [[("Other", some "x")]]
    ⟨[("Other", some "x")], by simp, by decide⟩

/-- C3: in a batch, the first query whose execution raises makes the whole
call raise one aggregate failure whose message carries the offending query's
name and the original exception's type and message, and no mapping is
returned; when every query succeeds the returned mapping has exactly the
input query names, each bound to its query's rows. -/
theorem C3_batch_aggregate_failure :
    (∀ (run : RunFn) (pre : List (String × String)) (name q : String)
        (post : List (String × String)) (e : PyErr),
      (∀ p ∈ pre, ∃ rows, (run p.2).bind recordsOf = Except.ok rows) →
      (run q).bind recordsOf = Except.error e →
      runQueriesInParallel run (pre ++ (name, q) :: post) =
        Except.error (wrapQueryError name e) ∧
      pyMsg (wrapQueryError name e) =
        "Error executing query '" ++ (name ++ ("': " ++ (pyType e ++ (": " ++ pyMsg e))))) ∧
    (∀ (run : RunFn) (queries : List (String × String)),
      (∀ p ∈ queries, ∃ rows, (run p.2).bind recordsOf = Except.ok rows) →
      ∃ out, runQueriesInParallel run queries = Except.ok out ∧
        out.map Prod.fst = queries.map Prod.fst ∧
        (∀ name q rows, (name, q) ∈ queries →
          (run q).bind recordsOf = Except.ok rows → (name, rows) ∈ out)) := by
  constructor
  · intro run pre name q post e
    induction pre with
    | nil =>
      intro _ hq
      refine ⟨?_, ?_⟩
      · simp only [List.nil_append]
        simp [runQueriesInParallel, hq]
      · simp [wrapQueryError, pyMsg, String.append_assoc]
    | cons a rest ih =>
      intro hpre hq
      obtain ⟨rows0, hrows0⟩ := hpre a (List.mem_cons_self a rest)
      have hrec := ih (fun p hp => hpre p (List.mem_cons_of_mem a hp)) hq
      refine ⟨?_, hrec.2⟩
      obtain ⟨ha, _⟩ := hrec
      cases a with
      | mk n0 q0 =>
        simp only [List.cons_append]
        simp [runQueriesInParallel, hrows0, ha]
  · intro run queries
    induction queries with
    | nil =>
      intro _
      exact ⟨[], rfl, rfl, by intro name q rows hmem; cases hmem⟩
    | cons a rest ih =>
      intro h
      obtain ⟨rows0, hrows0⟩ := h a (List.mem_cons_self a rest)
      obtain ⟨out, hout, hkeys, hmem⟩ := ih (fun p hp => h p (List.mem_cons_of_mem a hp))
      cases a with
      | mk n0 q0 =>
        refine ⟨(n0, rows0) :: out, ?_, ?_, ?_⟩
        · simp [runQueriesInParallel, hrows0, hout]
        · simp [hkeys]
        · intro name q rows hmemq hrun
          rcases List.mem_cons.mp hmemq with heq | hmemq'
          · cases heq
            rw [hrows0] at hrun
            have : rows0 = rows := Except.ok.inj hrun
            subst this
            exact List.mem_cons_self _ _
          · exact List.mem_cons_of_mem _ (hmem name q rows hmemq' hrun)

/-- C3 witness: a one-element batch whose query fails raises the wrapped
aggregate failure naming it. -/
theorem C3_batch_aggregate_failure_witness :
    runQueriesInParallel (fun _ => Except.ok none) [("bad", "Q")] =
      Except.error (wrapQueryError "bad"
        (PyErr.typeError "'NoneType' object is not subscriptable")) :=
  (C3_batch_aggregate_failure.1 (fun _ => Except.ok none) [] "bad" "Q" []
    (PyErr.typeError "'NoneType' object is not subscriptable")
    (by intro p hp; cases hp) rfl).1

theorem alistGetAppendAllSame {α : Type} (k : String) (vs : List α) :
    ∀ d : List (String × List α),
      alistGet? (alistAppendAll d k vs) k = (alistGet? d k).map (fun b => b ++ vs) := by
  intro d
  induction d with
  | nil => rfl
  | cons a rest ih =>
    simp only [alistAppendAll, List.map_cons, beq_iff_eq] at ih ⊢
    by_cases h : a.1 = k
    · simp [alistGet?, h]
    · simp [alistGet?, h, ih]

theorem alistGetAppendAllOther {α : Type} (k t : String) (hne : t ≠ k) (vs : List α) :
    ∀ d : List (String × List α),
      alistGet? (alistAppendAll d k vs) t = alistGet? d t := by
  intro d
  induction d with
  | nil => rfl
  | cons a rest ih =>
    simp only [alistAppendAll, List.map_cons, beq_iff_eq] at ih ⊢
    by_cases h : a.1 = k
    · have h2 : a.1 ≠ t := by rw [h]; exact fun hc => hne hc.symm
      simp [alistGet?, h, h2, hne, Ne.symm hne, ih]
    · by_cases h3 : a.1 = t
      · simp [alistGet?, h, h3, hne, Ne.symm hne, ih]
      · simp [alistGet?, h, h3, hne, Ne.symm hne, ih]

theorem alistAppendAllKeys {α : Type} (k : String) (vs : List α) :
    ∀ d : List (String × List α),
      (alistAppendAll d k vs).map Prod.fst = d.map Prod.fst := by
  intro d
  induction d with
  | nil => rfl
  | cons a rest ih =>
    simp only [alistAppendAll, List.map_cons, beq_iff_eq] at ih ⊢
    by_cases h : a.1 = k
    · simp only [h, if_true, List.map_cons, ih]
    · simp only [h, if_false, List.map_cons, ih, if_neg h]

theorem bucketOfCons (t0 i : Val) (rest : List (Val × Val)) (t : String) :
    bucketOf ((t0, i) :: rest) t =
      if t0 == some t then i :: bucketOf rest t else bucketOf rest t := by
  simp only [bucketOf, List.filter_cons]
  cases h : (t0 == some t) <;> simp [h]

theorem classifyAuxKeys :
    ∀ (pairs : List (Val × Val)) (d : List (String × List Val)),
      (classifyAux pairs d).map Prod.fst = d.map Prod.fst := by
  intro pairs
  induction pairs with
  | nil => intro d; rfl
  | cons p rest ih =>
    intro d
    cases p with
    | mk t i =>
      cases t with
      | none => simpa [classifyAux] using ih d
      | some s =>
        simp only [classifyAux]
        by_cases h : (SETUP_ENTITY_TYPES.map Prod.fst).contains s = true
        · rw [if_pos h, ih, alistAppendAllKeys]
        · rw [if_neg h, ih]

theorem classifyAuxGetKnown (t : String)
    (ht : (SETUP_ENTITY_TYPES.map Prod.fst).contains t = true) :
    ∀ (pairs : List (Val × Val)) (d : List (String × List Val)),
      alistGet? (classifyAux pairs d) t =
        (alistGet? d t).map (fun b => b ++ bucketOf pairs t) := by
  intro pairs
  induction pairs with
  | nil =>
    intro d
    simp [classifyAux, bucketOf]
  | cons p rest ih =>
    intro d
    cases p with
    | mk t0 i =>
      cases t0 with
      | none =>
        rw [bucketOfCons]
        simpa [classifyAux] using ih d
      | some s =>
        by_cases hs : s = t
        · subst hs
          simp only [classifyAux, ht, if_true]
          rw [ih (alistAppendAll d s [i]), alistGetAppendAllSame, bucketOfCons]
          simp only [Option.map_map, beq_self_eq_true, if_true]
          congr 1
          funext b
          simp [List.append_assoc]
        · rw [bucketOfCons]
          have hne : ((some s : Val) == some t) = false := by simp [hs]
          rw [hne]
          simp only [Bool.false_eq_true, if_false]
          by_cases hc : (SETUP_ENTITY_TYPES.map Prod.fst).contains s = true
          · simp only [classifyAux, hc, if_true]
            rw [ih (alistAppendAll d s [i]), alistGetAppendAllOther s t (Ne.symm hs)]
          · simp only [classifyAux, hc, if_false]
            exact ih d

theorem initBucketsGet (t : String)
    (ht : (SETUP_ENTITY_TYPES.map Prod.fst).contains t = true) :
    alistGet? initBuckets t = some [] := by
  have hmem : t ∈ SETUP_ENTITY_TYPES.map Prod.fst := by
    simpa using ht
  simp only [SETUP_ENTITY_TYPES, List.map_cons, List.map_nil, List.mem_cons,
    List.mem_singleton, List.not_mem_nil, or_false] at hmem
  rcases hmem with rfl | rfl | rfl | rfl | rfl | rfl | rfl <;> rfl

theorem classifyGetKnown (pairs : List (Val × Val)) (t : String)
    (ht : (SETUP_ENTITY_TYPES.map Prod.fst).contains t = true) :
    alistGet? (classify pairs) t = some (bucketOf pairs t) := by
  unfold classify
  rw [classifyAuxGetKnown t ht pairs initBuckets, initBucketsGet t ht]
  simp

theorem buildSetupQueriesAuxSpec (d : List (String × List Val))
    (bucket : String → List Val) :
    ∀ entries : List (String × MetadataInfo),
      (∀ p ∈ entries, alistGet? d p.1 = some (bucket p.1)) →
      (∀ p ∈ entries, p.2.columns ≠ [] ∧ p.2.table_name ≠ "") →
      ∃ queries, buildSetupQueriesAux entries d = Except.ok queries ∧
        queries.map Prod.fst =
          (entries.map Prod.fst).filter (fun t => !(bucket t).isEmpty) := by
  intro entries
  induction entries with
  | nil => intro _ _; exact ⟨[], rfl, rfl⟩
  | cons a rest ih =>
    intro hget hok
    obtain ⟨queries', hq', hkeys'⟩ := ih (fun p hp => hget p (List.mem_cons_of_mem a hp))
      (fun p hp => hok p (List.mem_cons_of_mem a hp))
    have hgeta := hget a (List.mem_cons_self a rest)
    obtain ⟨hc, htb⟩ := hok a (List.mem_cons_self a rest)
    cases a with
    | mk t info =>
      by_cases hb : (bucket t).length ≠ 0
      · have hbq : ∃ q, buildQuery info.columns info.table_name
            [(info.id_field, WhereVal.listVal ((bucket t).map valStr))] =
            Except.ok q := by
          simp [buildQuery, hc, htb]
        obtain ⟨q, hq⟩ := hbq
        refine ⟨(t, q) :: queries', ?_, ?_⟩
        · simp only [buildSetupQueriesAux, hgeta]
          rw [if_pos hb]
          simp [hq, hq', exceptOkBind]
        · have hne : (!(bucket t).isEmpty) = true := by
            cases hbt : bucket t with
            | nil => exact absurd (show (bucket t).length = 0 by rw [hbt]; rfl) hb
            | cons x xs => simp [hbt]
          simp only [List.map_cons, List.filter_cons, hne, if_true, hkeys']
      · have hbe : bucket t = [] := by
          push_neg at hb
          exact List.length_eq_zero.mp hb
        refine ⟨queries', ?_, ?_⟩
        · simp only [buildSetupQueriesAux, hgeta]
          rw [if_neg hb]
          exact hq'
        · simp only [List.map_cons, List.filter_cons, hbe, List.isEmpty_nil,
            Bool.not_true, Bool.false_eq_true, if_false, hkeys']

/-- C4: classification buckets each row's entity ID under its entity type
exactly when the type is one of the 7 known descriptors (the bucket dict
keeps exactly the 7 known keys, each holding the IDs of its type in order, so
unknown types contribute to no bucket and raise no error), and phase 2 builds
exactly one resolution query per descriptor with a non-empty bucket. -/
theorem C4_classification_and_query_count :
    ∀ (rows : List Row) (pairs : List (Val × Val)),
      extractAccessPairs rows = Except.ok pairs →
      ((classify pairs).map Prod.fst = SETUP_ENTITY_TYPES.map Prod.fst) ∧
      (∀ t, (SETUP_ENTITY_TYPES.map Prod.fst).contains t = true →
        alistGet? (classify pairs) t = some (bucketOf pairs t)) ∧
      (∃ queries, buildSetupQueries pairs = Except.ok queries ∧
        queries.map Prod.fst =
          (SETUP_ENTITY_TYPES.map Prod.fst).filter
            (fun t => !(bucketOf pairs t).isEmpty) ∧
        queries.length =
          ((SETUP_ENTITY_TYPES.map Prod.fst).filter
            (fun t => !(bucketOf pairs t).isEmpty)).length) := by
  intro rows pairs _
  refine ⟨?_, ?_, ?_⟩
  · unfold classify
    rw [classifyAuxKeys pairs initBuckets]
    simp [initBuckets]
  · intro t ht
    exact classifyGetKnown pairs t ht
  · obtain ⟨queries, hq, hkeys⟩ :=
      buildSetupQueriesAuxSpec (classify pairs) (bucketOf pairs) SETUP_ENTITY_TYPES
        (fun p hp => classifyGetKnown pairs p.1 (by fin_cases hp <;> decide))
        (fun p hp => by fin_cases hp <;> exact ⟨by decide, by decide⟩)
    refine ⟨queries, hq, hkeys, ?_⟩
    calc queries.length = (queries.map Prod.fst).length := (List.length_map _ _).symm
    _ = _ := congrArg List.length hkeys

/-- C4 witness: a known-type row is bucketed and an unknown-type row is
dropped, the bucket dict keeping exactly the 7 registry keys. -/
theorem C4_classification_and_query_count_witness :
    (classify [(some "ApexClass", some "id1"), (some "Bogus", some "id2")]).map
      Prod.fst = SETUP_ENTITY_TYPES.map Prod.fst :=
  (C4_classification_and_query_count
    [[("SetupEntityType", some "ApexClass"), ("SetupEntityId", some "id1")],
     [("SetupEntityType", some "Bogus"), ("SetupEntityId", some "id2")]]
    [(some "ApexClass", some "id1"), (some "Bogus", some "id2")] rfl).1

theorem alistSetdefaultKeysMem {α : Type} (d : List (String × α)) (key : String)
    (v : α) (k : String) (hk : k ∈ (alistSetdefault d key v).map Prod.fst) :
    k ∈ d.map Prod.fst ∨ k = key := by
  unfold alistSetdefault at hk
  by_cases h : alistHas d key = true
  · rw [if_pos h] at hk
    exact Or.inl hk
  · rw [if_neg h] at hk
    simp only [List.map_append, List.map_cons, List.map_nil] at hk
    rcases List.mem_append.mp hk with h1 | h2
    · exact Or.inl h1
    · simp at h2
      exact Or.inr h2

theorem extractValuesAuxKeys :
    ∀ (entries : List (String × MetadataInfo)) (result : List (String × List Row))
      (acc out : List (String × List Val)),
      extractValuesAux entries result acc = Except.ok out →
      ∀ k ∈ out.map Prod.fst,
        k ∈ acc.map Prod.fst ∨ k ∈ entries.map (fun p => p.2.package_xml_name) := by
  intro entries
  induction entries with
  | nil =>
    intro result acc out h k hk
    have hacc : acc = out := Except.ok.inj h
    subst hacc
    exact Or.inl hk
  | cons a rest ih =>
    intro result acc out h k hk
    cases a with
    | mk t info =>
      cases hr : alistGet? result t with
      | some items =>
        simp only [extractValuesAux, hr] at h
        obtain ⟨vs, _, hrest⟩ := exceptBindOkInv h
        rcases ih result _ out hrest k hk with hacc | hrest'
        · rw [alistAppendAllKeys] at hacc
          rcases alistSetdefaultKeysMem acc info.package_xml_name [] k hacc with h1 | h2
          · exact Or.inl h1
          · exact Or.inr (by rw [h2]; exact List.mem_cons_self _ _)
        · exact Or.inr (List.mem_cons_of_mem _ hrest')
      | none =>
        simp only [extractValuesAux, hr] at h
        rcases ih result acc out h k hk with h1 | h2
        · exact Or.inl h1
        · exact Or.inr (List.mem_cons_of_mem _ h2)

/-- C9: TabSet and ConnectedApplication share the manifest category
"CustomApplication" (and the same source table and id field), so when both
are discovered their members land in one shared "CustomApplication" list,
and the setup-entity output never holds more than 6 distinct category keys. -/
theorem C9_shared_custom_application :
    (TABSET.package_xml_name = CONNECTEDAPPLICATION.package_xml_name ∧
     TABSET.table_name = CONNECTEDAPPLICATION.table_name ∧
     TABSET.id_field = CONNECTEDAPPLICATION.id_field ∧
     TABSET.package_xml_name = "CustomApplication") ∧
    (extractValuesAux SETUP_ENTITY_TYPES
      [("TabSet", [[("Name", some "T1"), ("NamespacePrefix", none)]]),
       ("ConnectedApplication", [[("Name", some "C1"), ("NamespacePrefix", none)]])] [] =
      Except.ok [("CustomApplication", [some "T1", some "C1"])]) ∧
    (∀ (result : List (String × List Row)) (out : List (String × List Val)),
      extractValuesAux SETUP_ENTITY_TYPES result [] = Except.ok out →
      (out.map Prod.fst).toFinset.card ≤ 6) := by
  refine ⟨⟨rfl, rfl, rfl, rfl⟩, rfl, ?_⟩
  intro result out h
  have hsub : ∀ k ∈ out.map Prod.fst,
      k ∈ SETUP_ENTITY_TYPES.map (fun p => p.2.package_xml_name) := by
    intro k hk
    rcases extractValuesAuxKeys SETUP_ENTITY_TYPES result [] out h k hk with h1 | h2
    · cases h1
    · exact h2
  have hsub2 : (out.map Prod.fst).toFinset ⊆
      ({"ApexClass", "ApexPage", "CustomPermission", "CustomApplication",
        "ExternalDataSource", "Flow"} : Finset String) := by
    intro k hk
    have hmem := hsub k (List.mem_toFinset.mp hk)
    simp [SETUP_ENTITY_TYPES, APEXCLASS, APEXPAGE, CUSTOMPERMISSION, TABSET,
      CONNECTEDAPPLICATION, EXTERNALDATASOURCE, FLOWDEFINITION] at hmem
    simp only [Finset.mem_insert, Finset.mem_singleton]
    tauto
  calc (out.map Prod.fst).toFinset.card ≤ _ := Finset.card_le_card hsub2
  _ ≤ 6 := by decide

/-- C9 witness: the bound applied at the shared-list instance. -/
theorem C9_shared_custom_application_witness :
    ((([("CustomApplication", [some "T1", some "C1"])] :
      List (String × List Val)).map Prod.fst).toFinset.card ≤ 6) :=
  C9_shared_custom_application.2.2
    [("TabSet", [[("Name", some "T1"), ("NamespacePrefix", none)]]),
     ("ConnectedApplication", [[("Name", some "C1"), ("NamespacePrefix", none)]])]
    [("CustomApplication", [some "T1", some "C1"])] rfl

theorem alistReplaceKeys {α : Type} (p : String × α) :
    ∀ d : List (String × α),
      (d.map (fun q => if q.1 == p.1 then p else q)).map Prod.fst = d.map Prod.fst := by
  intro d
  induction d with
  | nil => rfl
  | cons a rest ih =>
    simp only [List.map_cons, ih]
    by_cases h : a.1 = p.1
    · simp [h]
    · simp [h]

theorem alistUpdateKeysMem {α : Type} :
    ∀ (new d : List (String × α)) (k : String),
      k ∈ (alistUpdate d new).map Prod.fst →
      k ∈ d.map Prod.fst ∨ k ∈ new.map Prod.fst := by
  intro new
  induction new with
  | nil => intro d k hk; exact Or.inl hk
  | cons p rest ih =>
    intro d k hk
    simp only [alistUpdate, List.foldl_cons] at hk
    have hk' := ih _ k hk
    rcases hk' with hstep | hrest
    · by_cases h : alistHas d p.1 = true
      · rw [if_pos h, alistReplaceKeys] at hstep
        exact Or.inl hstep
      · rw [if_neg h] at hstep
        simp only [List.map_append, List.map_cons, List.map_nil] at hstep
        rcases List.mem_append.mp hstep with h1 | h2
        · exact Or.inl h1
        · simp at h2
          exact Or.inr (by rw [h2]; exact List.mem_cons_self _ _)
    · exact Or.inr (List.mem_cons_of_mem _ hrest)

theorem exceptMapOkInv {α β : Type} {x : Except PyErr α} {f : α → β} {b : β}
    (h : x.map f = Except.ok b) : ∃ a, x = Except.ok a ∧ f a = b := by
  cases x with
  | error e => exact absurd h (fun hc => Except.noConfusion hc)
  | ok a =>
    refine ⟨a, rfl, ?_⟩
    have : (Except.ok (f a) : Except PyErr β) = Except.ok b := h
    exact Except.ok.inj this

/-- C8: every category key of the final mapping (the permissionable entities
merged with the caller-supplied Profile category) is one of the 7 static
descriptors' manifest categories, or the fixed CustomObject category, or the
fixed CustomTab category, or "Profile" — nothing else. -/
theorem C8_output_category_keys :
    ∀ (run : RunFn) (profiles : List String) (out : List (String × List Val)),
      entitiesToBeRetrieved run profiles = Except.ok out →
      ∀ k ∈ out.map Prod.fst,
        k ∈ SETUP_ENTITY_TYPES.map (fun p => p.2.package_xml_name) ∨
        k = SOBJECT_TYPE ∨ k = CUSTOM_TAB_TYPE ∨ k = "Profile" := by
  intro run profiles out h k hk
  unfold entitiesToBeRetrieved at h
  obtain ⟨pe, hpe, hmerge⟩ := exceptBindOkInv h
  have hout : alistUpdate pe [("Profile", profiles.map some)] = out :=
    Except.ok.inj hmerge
  rw [← hout] at hk
  rcases alistUpdateKeysMem [("Profile", profiles.map some)] pe k hk with hk1 | hk2
  · -- k comes from the permissionable-entities mapping
    unfold retrievePermissionableEntities at hpe
    obtain ⟨q1, hq1, hpe⟩ := exceptBindOkInv hpe
    obtain ⟨q2, hq2, hpe⟩ := exceptBindOkInv hpe
    obtain ⟨q3, hq3, hpe⟩ := exceptBindOkInv hpe
    obtain ⟨result, hres, hpe⟩ := exceptBindOkInv hpe
    obtain ⟨seaRows, hsea, hpe⟩ := exceptBindOkInv hpe
    obtain ⟨d1, hd1, hpe⟩ := exceptBindOkInv hpe
    obtain ⟨soRows, hso, hpe⟩ := exceptBindOkInv hpe
    obtain ⟨d2, hd2, hpe⟩ := exceptBindOkInv hpe
    obtain ⟨tabRows, htab, hpe⟩ := exceptBindOkInv hpe
    obtain ⟨d3, hd3, hpe⟩ := exceptBindOkInv hpe
    have hpe' : alistUpdate (alistUpdate (alistUpdate [] d1) d2) d3 = pe :=
      Except.ok.inj hpe
    rw [← hpe'] at hk1
    rcases alistUpdateKeysMem d3 _ k hk1 with hk12 | hk3
    · rcases alistUpdateKeysMem d2 _ k hk12 with hk11 | hkd2
      · rcases alistUpdateKeysMem d1 _ k hk11 with hknil | hkd1
        · cases hknil
        · -- k is a key of the setup-entity mapping
          unfold processSetupEntityAccessResults at hd1
          obtain ⟨pairs, hpairs, hd1⟩ := exceptBindOkInv hd1
          obtain ⟨queries2, hqs2, hd1⟩ := exceptBindOkInv hd1
          obtain ⟨result2, hres2, hd1⟩ := exceptBindOkInv hd1
          rcases extractValuesAuxKeys SETUP_ENTITY_TYPES result2 [] d1 hd1 k hkd1
            with h1 | h2
          · cases h1
          · exact Or.inl h2
      · -- k is the CustomObject key
        unfold processSObjectResults at hd2
        obtain ⟨vs, _, hfd2⟩ := exceptMapOkInv hd2
        rw [← hfd2] at hkd2
        simp at hkd2
        exact Or.inr (Or.inl hkd2)
    · -- k is the CustomTab key
      unfold processCustomTabResults at hd3
      obtain ⟨vs, _, hfd3⟩ := exceptMapOkInv hd3
      rw [← hfd3] at hk3
      simp at hk3
      exact Or.inr (Or.inr (Or.inl hk3))
  · -- k is the Profile key
    simp at hk2
    exact Or.inr (Or.inr (Or.inr hk2))

/-- C8 witness: the invariant applied at a concrete run with empty results. -/
theorem C8_output_category_keys_witness :
    "Profile" ∈ SETUP_ENTITY_TYPES.map (fun p => p.2.package_xml_name) ∨
    "Profile" = SOBJECT_TYPE ∨ "Profile" = CUSTOM_TAB_TYPE ∨ "Profile" = "Profile" :=
  C8_output_category_keys (fun _ => Except.ok (some [])) ["Admin"]
    [("CustomObject", []), ("CustomTab", []), ("Profile", [some "Admin"])] rfl
    "Profile" (by decide)
